import Mathlib

/-
Verification of the gtFrame frame-hierarchy transform engine.

The definitions below are a shallow embedding of the Python sources:
  * src/gtFrame/rotation.py  (class Rotation2d)
  * src/gtFrame/basic.py     (RootFrame2d, origin2d, Frame2d)
  * src/gtFrame/direction.py (Direction3d constructor)
Numpy float64 arithmetic is modelled with real numbers; numpy arrays of
shape (2,) and (3,) with pairs/triples of reals.  Python object identity
of frames (Frame2d defines no custom equality, so `==` is identity) is
modelled by an arena: frames live in a list and are referenced by index,
with a distinguished reference for the root singleton origin2d.  The two
while-loops of find_transform_path are embedded with an explicit fuel
parameter; `none` models a walk that does not complete within the fuel
(a malformed, cyclic tree) or a dangling arena reference.
-/

/-- Two-component real vector, modelling a numpy array of shape (2,). -/
abbrev Vec2 := ℝ × ℝ

/-- Three-component real vector, modelling a numpy array of shape (3,). -/
abbrev Vec3 := ℝ × ℝ × ℝ

/-- A 2x2 real matrix, stored as its two rows. -/
abbrev Mat2 := (ℝ × ℝ) × (ℝ × ℝ)

/-- Matrix-vector product for 2x2 matrices (numpy `matrix @ vector`). -/
noncomputable def matVec (m : Mat2) (v : Vec2) : Vec2 :=
  (m.1.1 * v.1 + m.1.2 * v.2, m.2.1 * v.1 + m.2.2 * v.2)

/-- Transpose of a 2x2 matrix. -/
def transposeMat (m : Mat2) : Mat2 :=
  ((m.1.1, m.2.1), (m.1.2, m.2.2))

/-- Embedding of gtFrame.rotation.Rotation2d: the object stores the angle
`_angle` and the derived matrix `_matrix` (rotation.py lines 11-26). -/
structure Rotation2d where
  _angle : ℝ
  _matrix : Mat2

/-- Rotation2d.__init__ (rotation.py lines 19-26): stores the angle and the
matrix [[cos a, -sin a], [sin a, cos a]]. -/
noncomputable def Rotation2d.init (angle : ℝ) : Rotation2d :=
  { _angle := angle,
    _matrix := ((Real.cos angle, -Real.sin angle),
                (Real.sin angle, Real.cos angle)) }

/-- Rotation2d.apply (rotation.py lines 28-38): copies the argument and
returns `self._matrix @ vector`. -/
noncomputable def Rotation2d.apply (r : Rotation2d) (vector : Vec2) : Vec2 :=
  matVec r._matrix vector

/-- Rotation2d.as_rad (rotation.py lines 49-56). -/
def Rotation2d.as_rad (r : Rotation2d) : ℝ :=
  r._angle

/-- Rotation2d.as_matrix (rotation.py lines 58-65). -/
def Rotation2d.as_matrix (r : Rotation2d) : Mat2 :=
  r._matrix

/-- Rotation2d.update (rotation.py lines 67-79) in state-passing form: the
returned value is the state of the object after the mutating call, which
replaces `_angle` and recomputes `_matrix` from the new angle. -/
noncomputable def Rotation2d.update (_r : Rotation2d) (angle : ℝ) : Rotation2d :=
  { _angle := angle,
    _matrix := ((Real.cos angle, -Real.sin angle),
                (Real.sin angle, Real.cos angle)) }

/-- Modelled from the spec: `Rotation2d.apply_inverse` is called by
`Frame2d.transform_from_parent` (basic.py line 129) and exercised by the
test-suite, but no definition of it is present in src/gtFrame/rotation.py.
Spec section 4.1: "apply_inverse(vector) -> vector: returns the inverse
rotation applied to `vector` (matrix transpose for 2D/3D orthonormal
rotations); must not mutate the input". -/
noncomputable def Rotation2d.apply_inverse (r : Rotation2d) (vector : Vec2) : Vec2 :=
  matVec (transposeMat r._matrix) vector

/-- Reference identity of a frame object: either the root singleton
`origin2d` or the i-th Frame2d object of the arena.  Python compares frames
with object identity, which equality of references captures. -/
inductive FrameRef where
  | origin : FrameRef
  | frame (idx : Nat) : FrameRef
  deriving DecidableEq

/-- Embedding of a Frame2d object's fields (basic.py lines 51-62):
`position` (a copy of the argument), `rotation`, and `_parent`. -/
structure Frame2d where
  position : Vec2
  rotation : Rotation2d
  _parent : FrameRef

/-- An arena of Frame2d objects; `FrameRef.frame i` denotes its i-th entry. -/
abbrev FrameEnv := List Frame2d

/-- One step of a transform path, as built by find_transform_path: a frame
reference paired with the direction tag "to" or "from". -/
abbrev PathStep := FrameRef × String

/-- Frame2d.__init__ (basic.py lines 51-62): raises ValueError unless the
position array has shape (2,), otherwise stores a copy of the position
together with the rotation and the parent reference.  The raised error is
modelled by `none`: no object is created. -/
def Frame2d.init (position : List ℝ) (rotation : Rotation2d) (parent_frame : FrameRef) :
    Option Frame2d :=
  match position with
  | [x, y] => some { position := (x, y), rotation := rotation, _parent := parent_frame }
  | _ => none

/-- Frame2d.__init__ called with the default parent argument, which is the
root singleton origin2d (basic.py lines 51-52). -/
def Frame2d.initDefault (position : List ℝ) (rotation : Rotation2d) : Option Frame2d :=
  Frame2d.init position rotation FrameRef.origin

/-- Frame2d.parent (basic.py lines 110-117). -/
def Frame2d.parent (f : Frame2d) : FrameRef :=
  f._parent

/-- One upward while-loop of Frame2d.find_transform_path (basic.py lines
82-92 for the first loop, 95-105 for the second): starting at `current`,
while the current frame is not origin2d, return early with `true` if the
current frame is `dest`, otherwise append `(current, tag)` and hop to the
parent.  Reaching origin2d exits the loop with `false`.  `fuel` bounds the
number of parent hops; `none` models a walk that does not finish within the
fuel, or a dangling arena reference. -/
def pathLoop (env : FrameEnv) (dest : FrameRef) (tag : String) (fuel : Nat)
    (current : FrameRef) (acc : List PathStep) : Option (Bool × List PathStep) :=
  match current with
  | FrameRef.origin => some (false, acc)
  | FrameRef.frame i =>
    if FrameRef.frame i = dest then some (true, acc)
    else
      match fuel with
      | 0 => none
      | fuel' + 1 =>
        match env[i]? with
        | none => none
        | some f => pathLoop env dest tag fuel' f._parent (acc ++ [(FrameRef.frame i, tag)])

/-- Frame2d.find_transform_path (basic.py lines 64-108): walk from `self`
to the origin accumulating ("to") steps, returning early if `dest` is found
on that branch; then walk from `dest` to the origin accumulating ("from")
steps, returning the reversed accumulator early if `self` is found on that
branch; otherwise concatenate the first list with the reverse of the
second. -/
def find_transform_path (env : FrameEnv) (fuel : Nat) (self dest : FrameRef) :
    Option (List PathStep) :=
  match pathLoop env dest "to" fuel self [] with
  | none => none
  | some (true, acc) => some acc
  | some (false, self_to_origin) =>
    match pathLoop env self "from" fuel dest [] with
    | none => none
    | some (true, acc) => some acc.reverse
    | some (false, frame_to_origin) => some (self_to_origin ++ frame_to_origin.reverse)

/-- Frame2d.transform_from_parent (basic.py lines 119-129): subtract the
position, then apply the inverse rotation. -/
noncomputable def Frame2d.transform_from_parent (f : Frame2d) (vector : Vec2) : Vec2 :=
  Rotation2d.apply_inverse f.rotation (vector - f.position)

/-- Frame2d.transform_to_parent (basic.py lines 131-139): apply the
rotation, then add the position. -/
noncomputable def Frame2d.transform_to_parent (f : Frame2d) (vector : Vec2) : Vec2 :=
  Rotation2d.apply f.rotation vector + f.position

/-- Frame2d.transform_from (basic.py lines 141-153): the body of the method
is the single statement `pass`, so every call returns Python `None`,
modelled by `none`. -/
def Frame2d.transform_from (_self : Frame2d) (_frame : FrameRef) (_vector : Vec2) :
    Option Vec2 :=
  none

/-- Embedding of RootFrame2d's instance fields (basic.py lines 22-32). -/
structure RootFrame2d where
  position : Vec2
  rotation : Rotation2d

/-- RootFrame2d.__init__ (basic.py lines 27-32): position [0, 0] and
rotation Rotation2d(0).  The module variable origin2d is this instance. -/
noncomputable def RootFrame2d.init : RootFrame2d :=
  { position := (0, 0), rotation := Rotation2d.init 0 }

/-- Names bound on a RootFrame2d instance by the class body (basic.py lines
22-32): the class defines only `__init__`, which sets `position` and
`rotation`.  Looking up any other name on origin2d raises AttributeError. -/
def RootFrame2d.definedNames : List String :=
  ["position", "rotation"]

/-- Embedding of a Direction3d object's fields (direction.py lines 140-164). -/
structure Direction3d where
  vector : Vec3
  reference : FrameRef
  rtol : ℝ

/-- Direction3d.__init__ (direction.py lines 155-164): raises ValueError
unless the vector has shape (3,); the raised error is modelled by `none`. -/
def Direction3d.init (vector : List ℝ) (reference : FrameRef) (rtol : ℝ) :
    Option Direction3d :=
  match vector with
  | [x, y, z] => some { vector := (x, y, z), reference := reference, rtol := rtol }
  | _ => none

/-- Chain of frame references visited when walking parents from `current`
up to, and excluding, `dest`; `none` when the walk meets the root (for a
non-root `dest`) or a dangling reference first, or runs out of fuel.  With
`dest = FrameRef.origin` this is the full chain from `current` to the root,
whose length is the depth of `current` in the tree.  This is the statement
vocabulary for ancestry and depth used by the theorems below. -/
def chainUpTo (env : FrameEnv) (dest : FrameRef) (fuel : Nat) (current : FrameRef) :
    Option (List FrameRef) :=
  if current = dest then some []
  else
    match current with
    | FrameRef.origin => none
    | FrameRef.frame i =>
      match fuel with
      | 0 => none
      | fuel' + 1 =>
        match env[i]? with
        | none => none
        | some f => (chainUpTo env dest fuel' f._parent).map (fun l => FrameRef.frame i :: l)

/-- Identity rotation used to populate the demonstration arena. -/
noncomputable def rot0 : Rotation2d :=
  Rotation2d.init 0

/-- Demonstration arena: frame 0 is a child of the root, frame 1 a child of
frame 0, frame 2 a child of frame 1 (the f1/f2/f3 chain of spec scenario C),
and frames 3 and 4 form a separate branch under the root. -/
noncomputable def demoEnv : FrameEnv :=
  [ { position := (0, 0), rotation := rot0, _parent := FrameRef.origin },
    { position := (0, 0), rotation := rot0, _parent := FrameRef.frame 0 },
    { position := (0, 0), rotation := rot0, _parent := FrameRef.frame 1 },
    { position := (0, 0), rotation := rot0, _parent := FrameRef.origin },
    { position := (0, 0), rotation := rot0, _parent := FrameRef.frame 3 } ]

/-- Frame of spec scenario B: position [3, 1], rotation angle -pi/4, parented
to the root. -/
noncomputable def frameB : Frame2d :=
  { position := (3, 1),
    rotation := Rotation2d.init (-(Real.pi / 4)),
    _parent := FrameRef.origin }

/-- Unfolding lemma: a walk starting at the root exits its loop at once. -/
theorem pathLoop_origin (env : FrameEnv) (dest : FrameRef) (tag : String) (fuel : Nat)
    (acc : List PathStep) :
    pathLoop env dest tag fuel FrameRef.origin acc = some (false, acc) := by
  cases fuel <;> rfl

/-- Unfolding lemma: a walk starting at a frame checks the destination first
and otherwise hops to the parent, consuming one unit of fuel. -/
theorem pathLoop_frame (env : FrameEnv) (dest : FrameRef) (tag : String) (fuel : Nat)
    (i : Nat) (acc : List PathStep) :
    pathLoop env dest tag (fuel + 1) (FrameRef.frame i) acc
      = if FrameRef.frame i = dest then some (true, acc)
        else
          match env[i]? with
          | none => none
          | some f => pathLoop env dest tag fuel f._parent (acc ++ [(FrameRef.frame i, tag)]) :=
  rfl

/-- Unfolding lemma: with no fuel left, a walk at a frame can only succeed by
finding the destination at that frame. -/
theorem pathLoop_frame_zero (env : FrameEnv) (dest : FrameRef) (tag : String)
    (i : Nat) (acc : List PathStep) :
    pathLoop env dest tag 0 (FrameRef.frame i) acc
      = if FrameRef.frame i = dest then some (true, acc) else none :=
  rfl

/-- Unfolding lemma: the chain from a frame to itself is empty. -/
theorem chainUpTo_self (env : FrameEnv) (dest : FrameRef) (fuel : Nat) :
    chainUpTo env dest fuel dest = some [] := by
  unfold chainUpTo
  simp

/-- Unfolding lemma: a chain starting at the root reaches no other target. -/
theorem chainUpTo_origin_ne (env : FrameEnv) (dest : FrameRef) (fuel : Nat)
    (h : FrameRef.origin ≠ dest) :
    chainUpTo env dest fuel FrameRef.origin = none := by
  unfold chainUpTo
  rw [if_neg h]

/-- Unfolding lemma: with no fuel, a chain from a frame other than the target
does not complete. -/
theorem chainUpTo_frame_ne_zero (env : FrameEnv) (dest : FrameRef) (i : Nat)
    (h : FrameRef.frame i ≠ dest) :
    chainUpTo env dest 0 (FrameRef.frame i) = none := by
  unfold chainUpTo
  rw [if_neg h]

/-- Unfolding lemma: a chain from a frame other than the target consults the
arena and hops to the parent, consuming one unit of fuel. -/
theorem chainUpTo_frame_succ (env : FrameEnv) (dest : FrameRef) (n i : Nat)
    (hd : FrameRef.frame i ≠ dest) :
    chainUpTo env dest (n + 1) (FrameRef.frame i)
      = match env[i]? with
        | none => none
        | some f => (chainUpTo env dest n f._parent).map (fun l => FrameRef.frame i :: l) := by
  conv_lhs => rw [chainUpTo.eq_def]
  rw [if_neg hd]

/-- Unfolding lemma: a chain from a frame other than the target with a
dangling arena reference does not complete. -/
theorem chainUpTo_frame_none (env : FrameEnv) (dest : FrameRef) (n i : Nat)
    (hd : FrameRef.frame i ≠ dest) (he : env[i]? = none) :
    chainUpTo env dest (n + 1) (FrameRef.frame i) = none := by
  rw [chainUpTo_frame_succ env dest n i hd, he]

/-- Unfolding lemma: a chain from a frame other than the target hops to the
parent via the arena entry of the frame. -/
theorem chainUpTo_frame_step (env : FrameEnv) (dest : FrameRef) (n i : Nat) (f : Frame2d)
    (hd : FrameRef.frame i ≠ dest) (he : env[i]? = some f) :
    chainUpTo env dest (n + 1) (FrameRef.frame i)
      = (chainUpTo env dest n f._parent).map (fun l => FrameRef.frame i :: l) := by
  rw [chainUpTo_frame_succ env dest n i hd, he]

/-- Unfolding lemma: a walk at a frame other than the destination appends the
frame and hops to the parent, consuming one unit of fuel. -/
theorem pathLoop_frame_step (env : FrameEnv) (dest : FrameRef) (tag : String)
    (fuel i : Nat) (acc : List PathStep) (f : Frame2d)
    (hd : FrameRef.frame i ≠ dest) (he : env[i]? = some f) :
    pathLoop env dest tag (fuel + 1) (FrameRef.frame i) acc
      = pathLoop env dest tag fuel f._parent (acc ++ [(FrameRef.frame i, tag)]) := by
  rw [pathLoop_frame, if_neg hd, he]

/-- Main loop lemma for the destination-on-the-branch case: when the chain
from `cur` up to `dest` exists, the loop accumulates exactly that chain and
returns early with `true` (or exits at the root with `false` when the
destination is the root itself). -/
theorem pathLoop_of_chainUpTo (env : FrameEnv) (tag : String) :
    ∀ (fuel : Nat) (dest cur : FrameRef) (l : List FrameRef) (acc : List PathStep),
      chainUpTo env dest fuel cur = some l →
      pathLoop env dest tag fuel cur acc
        = some (if dest = FrameRef.origin then false else true,
                acc ++ l.map (fun r => (r, tag))) := by
  intro fuel
  induction fuel with
  | zero =>
    intro dest cur l acc h
    cases cur with
    | origin =>
      by_cases hd : FrameRef.origin = dest
      · rw [← hd] at h
        rw [chainUpTo_self] at h
        injection h with h
        subst h
        rw [pathLoop_origin, ← hd]
        simp
      · rw [chainUpTo_origin_ne env dest 0 hd] at h
        exact absurd h (by simp)
    | frame i =>
      by_cases hd : FrameRef.frame i = dest
      · rw [← hd] at h
        rw [chainUpTo_self] at h
        injection h with h
        subst h
        rw [pathLoop_frame_zero, if_pos hd, ← hd]
        simp
      · rw [chainUpTo_frame_ne_zero env dest i hd] at h
        exact absurd h (by simp)
  | succ n ih =>
    intro dest cur l acc h
    cases cur with
    | origin =>
      by_cases hd : FrameRef.origin = dest
      · rw [← hd] at h
        rw [chainUpTo_self] at h
        injection h with h
        subst h
        rw [pathLoop_origin, ← hd]
        simp
      · rw [chainUpTo_origin_ne env dest (n + 1) hd] at h
        exact absurd h (by simp)
    | frame i =>
      by_cases hd : FrameRef.frame i = dest
      · rw [← hd] at h
        rw [chainUpTo_self] at h
        injection h with h
        subst h
        rw [pathLoop_frame, if_pos hd, ← hd]
        simp
      · cases he : env[i]? with
        | none =>
          rw [chainUpTo_frame_none env dest n i hd he] at h
          exact absurd h (by simp)
        | some f =>
          rw [chainUpTo_frame_step env dest n i f hd he] at h
          obtain ⟨l', hl', rfl⟩ := Option.map_eq_some'.mp h
          rw [pathLoop_frame_step env dest tag n i acc f hd he,
            ih dest f._parent l' (acc ++ [(FrameRef.frame i, tag)]) hl']
          simp

/-- Main loop lemma for the root-reaching case: when the chain from `cur`
down to the root exists and the destination does not occur on it, the loop
accumulates the full chain and exits at the root with `false`. -/
theorem pathLoop_reaches_root (env : FrameEnv) (tag : String) :
    ∀ (fuel : Nat) (dest cur : FrameRef) (l : List FrameRef) (acc : List PathStep),
      chainUpTo env FrameRef.origin fuel cur = some l → dest ∉ l →
      pathLoop env dest tag fuel cur acc = some (false, acc ++ l.map (fun r => (r, tag))) := by
  intro fuel
  induction fuel with
  | zero =>
    intro dest cur l acc h hmem
    cases cur with
    | origin =>
      rw [chainUpTo_self] at h
      injection h with h
      subst h
      rw [pathLoop_origin]
      simp
    | frame i =>
      rw [chainUpTo_frame_ne_zero env FrameRef.origin i (by simp)] at h
      exact absurd h (by simp)
  | succ n ih =>
    intro dest cur l acc h hmem
    cases cur with
    | origin =>
      rw [chainUpTo_self] at h
      injection h with h
      subst h
      rw [pathLoop_origin]
      simp
    | frame i =>
      cases he : env[i]? with
      | none =>
        rw [chainUpTo_frame_none env FrameRef.origin n i (by simp) he] at h
        exact absurd h (by simp)
      | some f =>
        rw [chainUpTo_frame_step env FrameRef.origin n i f (by simp) he] at h
        obtain ⟨l', hl', rfl⟩ := Option.map_eq_some'.mp h
        simp only [List.mem_cons] at hmem
        push_neg at hmem
        obtain ⟨hmem1, hmem2⟩ := hmem
        rw [pathLoop_frame_step env dest tag n i acc f (Ne.symm hmem1) he,
          ih dest f._parent l' (acc ++ [(FrameRef.frame i, tag)]) hl' hmem2]
        simp

/-- Main loop lemma for termination: when the chain from `cur` down to the
root exists, the loop completes within the same fuel, and it appends at most
one step for every node of the chain. -/
theorem pathLoop_bounded (env : FrameEnv) (tag : String) :
    ∀ (fuel : Nat) (dest cur : FrameRef) (l : List FrameRef) (acc : List PathStep),
      chainUpTo env FrameRef.origin fuel cur = some l →
      ∃ (b : Bool) (extra : List PathStep),
        pathLoop env dest tag fuel cur acc = some (b, acc ++ extra)
          ∧ extra.length ≤ l.length := by
  intro fuel
  induction fuel with
  | zero =>
    intro dest cur l acc h
    cases cur with
    | origin =>
      exact ⟨false, [], by rw [pathLoop_origin]; simp, by simp⟩
    | frame i =>
      rw [chainUpTo_frame_ne_zero env FrameRef.origin i (by simp)] at h
      exact absurd h (by simp)
  | succ n ih =>
    intro dest cur l acc h
    cases cur with
    | origin =>
      exact ⟨false, [], by rw [pathLoop_origin]; simp, by simp⟩
    | frame i =>
      by_cases hd : FrameRef.frame i = dest
      · exact ⟨true, [], by rw [pathLoop_frame, if_pos hd]; simp, by simp⟩
      · cases he : env[i]? with
        | none =>
          rw [chainUpTo_frame_none env FrameRef.origin n i (by simp) he] at h
          exact absurd h (by simp)
        | some f =>
          rw [chainUpTo_frame_step env FrameRef.origin n i f (by simp) he] at h
          obtain ⟨l', hl', rfl⟩ := Option.map_eq_some'.mp h
          obtain ⟨b, extra, hp, hlen⟩ :=
            ih dest f._parent l' (acc ++ [(FrameRef.frame i, tag)]) hl'
          refine ⟨b, (FrameRef.frame i, tag) :: extra, ?_, ?_⟩
          · rw [pathLoop_frame_step env dest tag n i acc f hd he, hp]
            simp
          · simpa using Nat.succ_le_succ hlen

/-- C3: when the destination lies on the upward chain from self (a strict
ancestor of self), find_transform_path returns exactly the ("to") steps
accumulated walking upward from self, stopping before the destination is
accumulated; in spec scenario C (f3 child of f2 child of f1, f1 a child of
the root) the path from f3 to f1 is [(f3, "to"), (f2, "to")]. -/
theorem find_transform_path_ancestor (env : FrameEnv) (fuel : Nat) (self dest : FrameRef)
    (chain : List FrameRef) (h : chainUpTo env dest fuel self = some chain) :
    find_transform_path env fuel self dest = some (chain.map (fun r => (r, "to"))) := by
  unfold find_transform_path
  rw [pathLoop_of_chainUpTo env "to" fuel dest self chain [] h]
  by_cases hd : dest = FrameRef.origin
  · subst hd
    simp [pathLoop_origin]
  · simp [hd]

/-- Witness for the ancestor-path theorem: spec scenario C in the
demonstration arena (f1 = frame 0, f2 = frame 1, f3 = frame 2). -/
theorem find_transform_path_ancestor_witness :
    chainUpTo demoEnv (FrameRef.frame 0) 10 (FrameRef.frame 2)
        = some [FrameRef.frame 2, FrameRef.frame 1]
      ∧ find_transform_path demoEnv 10 (FrameRef.frame 2) (FrameRef.frame 0)
        = some [(FrameRef.frame 2, "to"), (FrameRef.frame 1, "to")] :=
  ⟨rfl, find_transform_path_ancestor demoEnv 10 (FrameRef.frame 2) (FrameRef.frame 0)
    [FrameRef.frame 2, FrameRef.frame 1] rfl⟩

/-- C4: when neither frame occurs on the other's chain to the root (both
upward walks reach the root without meeting the other frame), the path is
the full self-to-root ("to") list concatenated with the reverse of the full
destination-to-root ("from") list, with no deduplication of shared
ancestors above the least common ancestor. -/
theorem find_transform_path_disjoint (env : FrameEnv) (fuel : Nat) (a b : FrameRef)
    (la lb : List FrameRef)
    (ha : chainUpTo env FrameRef.origin fuel a = some la)
    (hb : chainUpTo env FrameRef.origin fuel b = some lb)
    (hba : b ∉ la) (hab : a ∉ lb) :
    find_transform_path env fuel a b
      = some (la.map (fun r => (r, "to")) ++ (lb.map (fun r => (r, "from"))).reverse) := by
  unfold find_transform_path
  rw [pathLoop_reaches_root env "to" fuel b a la [] ha hba,
    pathLoop_reaches_root env "from" fuel a b lb [] hb hab]
  simp

/-- Witness for the disjoint-branches theorem: frame 2 (chain f2, f1, f0)
and frame 4 (chain f4, f3) in the demonstration arena share only the root. -/
theorem find_transform_path_disjoint_witness :
    chainUpTo demoEnv FrameRef.origin 10 (FrameRef.frame 2)
        = some [FrameRef.frame 2, FrameRef.frame 1, FrameRef.frame 0]
      ∧ chainUpTo demoEnv FrameRef.origin 10 (FrameRef.frame 4)
        = some [FrameRef.frame 4, FrameRef.frame 3]
      ∧ FrameRef.frame 4 ∉ [FrameRef.frame 2, FrameRef.frame 1, FrameRef.frame 0]
      ∧ FrameRef.frame 2 ∉ [FrameRef.frame 4, FrameRef.frame 3]
      ∧ find_transform_path demoEnv 10 (FrameRef.frame 2) (FrameRef.frame 4)
        = some [(FrameRef.frame 2, "to"), (FrameRef.frame 1, "to"),
                (FrameRef.frame 0, "to"),
                (FrameRef.frame 3, "from"), (FrameRef.frame 4, "from")] :=
  ⟨rfl, rfl, by decide, by decide,
    find_transform_path_disjoint demoEnv 10 (FrameRef.frame 2) (FrameRef.frame 4)
      [FrameRef.frame 2, FrameRef.frame 1, FrameRef.frame 0]
      [FrameRef.frame 4, FrameRef.frame 3] rfl rfl (by decide) (by decide)⟩

/-- C9: whenever the parent chains of both frames reach the root within the
given fuel (well-formed, acyclic, single-rooted tree), find_transform_path
completes, and the number of accumulated steps is bounded by the sum of the
two depths. -/
theorem find_transform_path_terminates (env : FrameEnv) (fuel : Nat) (a b : FrameRef)
    (la lb : List FrameRef)
    (ha : chainUpTo env FrameRef.origin fuel a = some la)
    (hb : chainUpTo env FrameRef.origin fuel b = some lb) :
    ∃ p, find_transform_path env fuel a b = some p
      ∧ p.length ≤ la.length + lb.length := by
  obtain ⟨b1, e1, h1, hl1⟩ := pathLoop_bounded env "to" fuel b a la [] ha
  obtain ⟨b2, e2, h2, hl2⟩ := pathLoop_bounded env "from" fuel a b lb [] hb
  simp only [List.nil_append] at h1 h2
  unfold find_transform_path
  rw [h1]
  cases b1 with
  | true => exact ⟨e1, rfl, le_trans hl1 (Nat.le_add_right _ _)⟩
  | false =>
    rw [h2]
    cases b2 with
    | true =>
      refine ⟨e2.reverse, rfl, ?_⟩
      simpa using le_trans hl2 (Nat.le_add_left _ _)
    | false =>
      refine ⟨e1 ++ e2.reverse, rfl, ?_⟩
      simpa using Nat.add_le_add hl1 hl2

/-- Witness for the termination theorem: both demonstration chains reach the
root with fuel 10 and the resulting path has at most 3 + 2 steps. -/
theorem find_transform_path_terminates_witness :
    chainUpTo demoEnv FrameRef.origin 10 (FrameRef.frame 2)
        = some [FrameRef.frame 2, FrameRef.frame 1, FrameRef.frame 0]
      ∧ chainUpTo demoEnv FrameRef.origin 10 (FrameRef.frame 4)
        = some [FrameRef.frame 4, FrameRef.frame 3]
      ∧ ∃ p, find_transform_path demoEnv 10 (FrameRef.frame 2) (FrameRef.frame 4) = some p
          ∧ p.length ≤ 3 + 2 :=
  ⟨rfl, rfl, find_transform_path_terminates demoEnv 10 (FrameRef.frame 2) (FrameRef.frame 4)
    [FrameRef.frame 2, FrameRef.frame 1, FrameRef.frame 0]
    [FrameRef.frame 4, FrameRef.frame 3] rfl rfl⟩

/-- C6: transform_to_parent applies the rotation to the vector and adds the
position (the embedding is a pure function, so the argument vector is not
mutated), and on the spec scenario B frame (position [3, 1], rotation angle
-pi/4) it sends [1, 2] to within 0.000001 of [5.12132034, 1.70710678]. -/
theorem transform_to_parent_correct :
    (∀ (f : Frame2d) (v : Vec2),
        Frame2d.transform_to_parent f v = Rotation2d.apply f.rotation v + f.position)
      ∧ |(Frame2d.transform_to_parent frameB (1, 2)).1 - 5.12132034| < 0.000001
      ∧ |(Frame2d.transform_to_parent frameB (1, 2)).2 - 1.70710678| < 0.000001 := by
  have hc : Real.cos (-(Real.pi / 4)) = Real.sqrt 2 / 2 := by
    rw [Real.cos_neg, Real.cos_pi_div_four]
  have hs : Real.sin (-(Real.pi / 4)) = -(Real.sqrt 2 / 2) := by
    rw [Real.sin_neg, Real.sin_pi_div_four]
  have hsq : Real.sqrt 2 ^ 2 = 2 := Real.sq_sqrt (by norm_num)
  have hnn : (0 : ℝ) ≤ Real.sqrt 2 := Real.sqrt_nonneg 2
  have hlow : (1.41421356 : ℝ) < Real.sqrt 2 := by nlinarith [hsq, hnn]
  have hhigh : Real.sqrt 2 < (1.41421357 : ℝ) := by nlinarith [hsq, hnn]
  refine ⟨fun f v => rfl, ?_, ?_⟩
  · rw [show (Frame2d.transform_to_parent frameB (1, 2)).1
        = Real.cos (-(Real.pi / 4)) * 1 + -Real.sin (-(Real.pi / 4)) * 2 + 3 from rfl,
      hc, hs, abs_lt]
    constructor <;> nlinarith [hlow, hhigh]
  · rw [show (Frame2d.transform_to_parent frameB (1, 2)).2
        = Real.sin (-(Real.pi / 4)) * 1 + Real.cos (-(Real.pi / 4)) * 2 + 1 from rfl,
      hc, hs, abs_lt]
    constructor <;> nlinarith [hlow, hhigh]

/-- C5: for every frame reference, in any arena and with any fuel, the
transform path from the frame to itself is the empty list. -/
theorem find_transform_path_self_empty (env : FrameEnv) (fuel : Nat) (f : FrameRef) :
    find_transform_path env fuel f f = some [] := by
  cases f with
  | origin => simp [find_transform_path, pathLoop_origin]
  | frame i =>
    cases fuel with
    | zero => simp [find_transform_path, pathLoop_frame_zero]
    | succ n => simp [find_transform_path, pathLoop_frame]

/-- C7: right after construction with angle a, and right after every update
to an angle a, the stored matrix is exactly
[[cos a, -sin a], [sin a, cos a]] for the stored orientation parameter a:
the matrix representation is never stale. -/
theorem rotation2d_matrix_never_stale (r : Rotation2d) (a : ℝ) :
    (Rotation2d.init a).as_matrix
        = ((Real.cos (Rotation2d.init a).as_rad, -Real.sin (Rotation2d.init a).as_rad),
           (Real.sin (Rotation2d.init a).as_rad, Real.cos (Rotation2d.init a).as_rad))
      ∧ (r.update a).as_matrix
        = ((Real.cos (r.update a).as_rad, -Real.sin (r.update a).as_rad),
           (Real.sin (r.update a).as_rad, Real.cos (r.update a).as_rad)) :=
  ⟨rfl, rfl⟩

/-- C1 (code bug): Frame2d.transform_from returns Python None for every
input, because its body is the single statement `pass`; it never produces
the transformed vector promised by its own docstring, by the test-suite and
by the claimed agreement with transform_to (which Frame2d does not define). -/
theorem transform_from_returns_none (f : Frame2d) (frame : FrameRef) (v : Vec2) :
    Frame2d.transform_from f frame v = none :=
  rfl

/-- C2: transform_from_parent applies the inverse rotation, namely the
transpose of the rotation matrix, to the difference of the vector and the
position.  The embedding is a pure function of the argument vector, which
is therefore not mutated. -/
theorem transform_from_parent_is_inverse_rotation (f : Frame2d) (v : Vec2) :
    Frame2d.transform_from_parent f v
      = matVec (transposeMat f.rotation.as_matrix) (v - f.position) :=
  rfl

/-- C8: constructing a Frame2d with a position whose shape is not (2,), or a
Direction3d with a vector whose shape is not (3,), fails with a domain error:
no object is created, and the mismatched vector is never broadcast or
truncated. -/
theorem constructor_shape_rejection
    (pos : List ℝ) (rot : Rotation2d) (par : FrameRef)
    (vec : List ℝ) (ref : FrameRef) (rtol : ℝ)
    (hpos : pos.length ≠ 2) (hvec : vec.length ≠ 3) :
    Frame2d.init pos rot par = none ∧ Direction3d.init vec ref rtol = none := by
  constructor
  · match pos, hpos with
    | [], _ => rfl
    | [_], _ => rfl
    | [_, _], h => exact absurd rfl h
    | _ :: _ :: _ :: _, _ => rfl
  · match vec, hvec with
    | [], _ => rfl
    | [_], _ => rfl
    | [_, _], _ => rfl
    | [_, _, _], h => exact absurd rfl h
    | _ :: _ :: _ :: _ :: _, _ => rfl

/-- Witness for the shape-rejection theorem: a 3-element position for a
Frame2d and a 2-element vector for a Direction3d are both rejected. -/
theorem constructor_shape_rejection_witness :
    Frame2d.init [1, 2, 3] rot0 FrameRef.origin = none
      ∧ Direction3d.init [1, 2] FrameRef.origin 0 = none :=
  constructor_shape_rejection [1, 2, 3] rot0 FrameRef.origin [1, 2] FrameRef.origin 0
    (by simp) (by simp)

/-- C10: the RootFrame2d class defines no operation beyond its constructor:
find_transform_path, parent and the transform methods are not among the
names its class body defines, so invoking them on origin2d raises
AttributeError; at the same time origin2d is the default parent of a
Frame2d and the sentinel at which every upward walk stops. -/
theorem rootframe2d_defines_no_operations :
    ("find_transform_path" ∉ RootFrame2d.definedNames
        ∧ "parent" ∉ RootFrame2d.definedNames
        ∧ "transform_from_parent" ∉ RootFrame2d.definedNames
        ∧ "transform_to_parent" ∉ RootFrame2d.definedNames
        ∧ "transform_from" ∉ RootFrame2d.definedNames)
      ∧ (∀ pos rot, Frame2d.initDefault pos rot = Frame2d.init pos rot FrameRef.origin)
      ∧ (∀ env dest tag fuel acc,
          pathLoop env dest tag fuel FrameRef.origin acc = some (false, acc)) :=
  ⟨by decide, fun _ _ => rfl, fun env dest tag fuel acc => by cases fuel <;> rfl⟩
